import Mathlib

/-!
Verification of the fastapi-pacer admission engine against its
natural-language specification.

The Python sources under `src/pacer/` are shallowly embedded below:
pure functions become Lean functions, the mutable pieces (metrics,
hooks, Redis round trips) become explicit effect traces, and Python
integers become `Nat`/`Int`.  Parts of the repository that are only
referenced from `src/` (the storage adapter's `check_policy` operation,
its `redis` client handle, and the server-side `gcra.lua` script) are
modelled from the specification; their doc comments say so explicitly.
-/

namespace Pacer

/-! ## Duration parsing (`policies.py`, `Rate._parse_duration`) -/

/-- Numeric value of a list of decimal digit characters, most significant first. -/
def digitsVal (cs : List Char) : Nat :=
  cs.foldl (fun a c => a * 10 + (c.toNat - '0'.toNat)) 0

/-- Longest prefix of decimal digits and the rest, mirroring the greedy
`\d+` groups of the regex `^(\d+(?:\.\d+)?)(s|m|h|d)$` in `_parse_duration`. -/
def spanDigits : List Char → List Char × List Char
  | [] => ([], [])
  | c :: cs =>
    if c.isDigit then
      let r := spanDigits cs
      (c :: r.1, r.2)
    else ([], c :: cs)

/-- Millisecond multiplier of a unit suffix (`_parse_duration`'s `multipliers`). -/
def unitMult : Char → Option Nat
  | 's' => some 1000
  | 'm' => some (60 * 1000)
  | 'h' => some (3600 * 1000)
  | 'd' => some (86400 * 1000)
  | _ => none

/-! ### IEEE-754 binary64 arithmetic (Python floats), as exact dyadic numbers

`Rate._parse_duration` computes `int(float(value) * multipliers[unit])`:
the decimal value is rounded to the nearest binary64 double
(round-to-nearest, ties-to-even), the product with the unit factor is
rounded again, and `int()` truncates toward zero.  A non-negative
double is represented here exactly as a pair `(m, ex) : Nat × Int`
standing for `m * 2 ^ ex`.  The model rounds to 53 significant bits
with an unbounded exponent: it agrees with CPython for every input
whose intermediate doubles are normal, and on subnormal-range inputs
the final truncation still agrees (both sides are below 1); inputs
overflowing the double range, on which the source raises
`OverflowError` out of the constructor, are outside the model. -/

/-- Floor of the base-2 logarithm by structural recursion on a fuel
that only needs to exceed the logarithm. -/
def log2F : Nat → Nat → Nat
  | 0, _ => 0
  | fuel + 1, n => if n < 2 then 0 else 1 + log2F fuel (n / 2)

/-- Floor of the base-2 logarithm (`0` at `0`). -/
def natLog2 (n : Nat) : Nat := log2F n n

/-- Whether `2 ^ e ≤ a / b` for an integer exponent `e` and positive
naturals `a`, `b`. -/
def pow2Le (e : Int) (a b : Nat) : Bool :=
  if 0 ≤ e then decide (b * 2 ^ e.toNat ≤ a) else decide (b ≤ a * 2 ^ (-e).toNat)

/-- Floor of the base-2 logarithm of `a / b` (`a`, `b` positive): the
bit-length difference, corrected to the unique exponent `e` with
`2 ^ e ≤ a / b < 2 ^ (e + 1)`. -/
def ratLog2 (a b : Nat) : Int :=
  let d : Int := (natLog2 a : Int) - (natLog2 b : Int)
  if pow2Le (d + 1) a b then d + 1
  else if pow2Le d a b then d
  else d - 1

/-- Round `n / d` to the nearest integer, ties to even. -/
def roundHalfEven (n d : Nat) : Nat :=
  let u := n / d
  let r := n % d
  if 2 * r < d then u
  else if d < 2 * r then u + 1
  else if u % 2 = 0 then u else u + 1

/-- Round the positive rational `a / b` to 53 significant bits
(round-to-nearest, ties-to-even), as a dyadic pair. -/
def round53 (a b : Nat) : Nat × Int :=
  let e := ratLog2 a b
  let shift : Int := 52 - e
  let m := if 0 ≤ shift then roundHalfEven (a * 2 ^ shift.toNat) b
           else roundHalfEven a (b * 2 ^ (-shift).toNat)
  (m, e - 52)

/-- `float(s)` for the decimal `v / den`: the nearest binary64 double. -/
def pyFloatOfDec (v den : Nat) : Nat × Int :=
  if v = 0 then (0, 0) else round53 v den

/-- Double times small integer, rounded back to a double
(`float * int` promotes the integer and rounds the product). -/
def pyFloatMulNat (x : Nat × Int) (k : Nat) : Nat × Int :=
  if x.1 * k = 0 then (0, 0)
  else if 0 ≤ x.2 then round53 (x.1 * k * 2 ^ x.2.toNat) 1
  else round53 (x.1 * k) (2 ^ (-x.2).toNat)

/-- `int()` of a non-negative double: truncation toward zero. -/
def pyTrunc (x : Nat × Int) : Nat :=
  if 0 ≤ x.2 then x.1 * 2 ^ x.2.toNat else x.1 / 2 ^ (-x.2).toNat

/-- `int(float(v / 10^f) * mult)`, the full conversion pipeline of
`_parse_duration` on the decimal value `v / den`. -/
def pyDurationMs (v den mult : Nat) : Nat :=
  pyTrunc (pyFloatMulNat (pyFloatOfDec v den) mult)

/-- Embedding of `Rate._parse_duration`: greedy match of
`^(\d+(?:\.\d+)?)(s|m|h|d)$`, then `int(float(value) * mult)` in the
binary64 model above (`value = digits / 10 ^ fracLen`). -/
def parseDuration (s : String) : Option Nat :=
  let p := spanDigits s.data
  if p.1 = [] then none
  else
    match p.2 with
    | '.' :: rest =>
      let q := spanDigits rest
      if q.1 = [] then none
      else
        match q.2 with
        | [u] =>
          match unitMult u with
          | some mult => some (pyDurationMs (digitsVal (p.1 ++ q.1)) (10 ^ q.1.length) mult)
          | none => none
        | _ => none
    | [u] =>
      match unitMult u with
      | some mult => some (pyDurationMs (digitsVal p.1) 1 mult)
      | none => none
    | _ => none

/-! ## Rate (`policies.py`) -/

/-- Embedding of the frozen dataclass `Rate (permits, per, burst)`.
`permits` and `burst` are `Nat` because `__post_init__` rejects
non-positive permits and negative burst. -/
structure Rate where
  permits : Nat
  per : String
  burst : Nat
  deriving Repr, DecidableEq

/-- Validation performed by `Rate.__post_init__`. -/
def Rate.valid (r : Rate) : Prop :=
  0 < r.permits ∧ (parseDuration r.per).isSome

instance (r : Rate) : Decidable r.valid := by
  unfold Rate.valid; infer_instance

/-- Embedding of the `Rate.period_ms` property (0 stands for the
exception branch, which validation makes unreachable). -/
def Rate.period_ms (r : Rate) : Nat :=
  (parseDuration r.per).getD 0

/-- Embedding of `Rate.emission_interval_ms`: `period_ms // permits`. -/
def Rate.emission_interval_ms (r : Rate) : Nat :=
  r.period_ms / r.permits

/-- Embedding of `Rate.burst_capacity_ms`: `burst * emission_interval_ms`. -/
def Rate.burst_capacity_ms (r : Rate) : Nat :=
  r.burst * r.emission_interval_ms

/-- Embedding of `Rate.ttl_ms`: `max(period + burst_capacity, period * 2)`. -/
def Rate.ttl_ms (r : Rate) : Nat :=
  max (r.period_ms + r.burst_capacity_ms) (r.period_ms * 2)

/-! ## Requests (`starlette.requests.Request`, as the selectors use it)

The selectors read request headers, query parameters, the peer address
and the authentication state placed on the request by upstream
middleware.  Header and query lookup are modelled as abstract maps
(starlette's `Headers.get`); `Option String` distinguishes an absent
entry (`None`) from a present-but-empty one (`""`, falsy in Python). -/

structure Request where
  headers : String → Option String
  queryParams : String → Option String
  clientHost : Option String
  method : String
  path : String
  stateUserId : Option String := none
  stateUserObjId : Option String := none
  userObjId : Option String := none
  stateOrgId : Option String := none
  stateOrganizationId : Option String := none
  stateOrgObjId : Option String := none

/-! ## Policy (`policies.py`) -/

/-- Embedding of the `key` field of `Policy`: either one of the builtin
string shorthands or a caller-supplied selector function. -/
inductive KeySpec where
  | tag : String → KeySpec
  | fn : (Request → String) → KeySpec

/-- Embedding of the frozen dataclass `Policy`. -/
structure Policy where
  rates : List Rate := [⟨10, "1s", 10⟩]
  key : KeySpec := .tag "ip"
  name : String := "default"
  max_rates : Nat := 3

/-- Validation performed by `Policy.__post_init__`. -/
def Policy.valid (p : Policy) : Prop :=
  p.rates ≠ [] ∧ p.rates.length ≤ p.max_rates ∧
    match p.key with
    | .tag s => s = "ip" ∨ s = "api_key" ∨ s = "user" ∨ s = "org"
    | .fn _ => True

/-- Embedding of `Policy.generate_keys`: one Redis key per rate,
`f"{app}:{scope}:{{{route}}}:{principal}:r{i}:{rate.permits}/{rate.per}"`,
where `scope` is the limiter's scope mode string and `route` the
request's scope value. -/
def Policy.generate_keys (p : Policy) (app scope route principal : String) : List String :=
  let base := app ++ ":" ++ scope ++ ":\x7b" ++ route ++ "\x7d:" ++ principal
  p.rates.enum.map fun ir =>
    base ++ ":r" ++ toString ir.1 ++ ":" ++ toString ir.2.permits ++ "/" ++ ir.2.per

/-- Embedding of `Policy.max_ttl_ms` (maximum TTL across the rates;
`0` stands for the empty list, which validation rejects). -/
def Policy.max_ttl_ms (p : Policy) : Nat :=
  (p.rates.map Rate.ttl_ms).foldl max 0

/-- Embedding of `Rate`'s rendering inside `Policy.describe`. -/
def Rate.describeStr (r : Rate) : String :=
  if 0 < r.burst then
    toString r.permits ++ "/" ++ r.per ++ " (burst=" ++ toString r.burst ++ ")"
  else
    toString r.permits ++ "/" ++ r.per

/-- Embedding of `Policy.describe`. -/
def Policy.describe (p : Policy) : String :=
  "Policy(" ++ p.name ++ "): " ++ String.intercalate ", " (p.rates.map Rate.describeStr)

/-- Embedding of `max(rate.permits for rate in policy.rates)` from the
fail-open branch of `Limiter.check_policy` (Python's `max` on the
non-empty rate list which validation guarantees; `0` for the empty case). -/
def Policy.maxPermits (p : Policy) : Nat :=
  match p.rates with
  | [] => 0
  | r :: rs => rs.foldl (fun a x => max a x.permits) r.permits

/-! ## The store and the atomic GCRA decision (spec-modelled)

The repository loads a server-side script from `pacer/lua/gcra.lua` and
invokes it through `SimpleRedisStorage.check_policy`; neither the Lua
file nor the `check_policy` method body is present under `src/` (the
limiter calls it at `limiter.py:206` and the tests patch it), so both
are modelled from the specification, §4.3 and §4.4. -/

/-- The store maps each key to its stored TAT (theoretical arrival
time, ms since the epoch); an absent key is the first request ever. -/
def Store := String → Option Int

/-- The empty store. -/
def Store.empty : Store := fun _ => none

/-- Verdict of one rate inside the script. -/
structure RateVerdict where
  allowed : Bool
  retry : Int
  reset : Int
  remaining : Int
  newTat : Int
  deriving Repr, DecidableEq

/-- Modelled from the spec: the single-rate GCRA step of the missing
`gcra.lua` script, §4.4 "Algorithm for a single rate": read the stored
TAT (`now_ms` when the key is absent), reject when `now_ms < TAT − B`
with `retry = allow_at − now`, `reset = TAT − now`, `remaining = 0`;
otherwise admit with `new_TAT = max(TAT, now) + T`,
`reset = new_TAT − now`, `remaining = ⌊(B − (new_TAT − now)) / T⌋`
clamped to `≥ 0`. -/
def gcraRate (tatOpt : Option Int) (t b now : Int) : RateVerdict :=
  let tat := tatOpt.getD now
  let allowAt := tat - b
  if now < allowAt then
    { allowed := false, retry := allowAt - now, reset := tat - now, remaining := 0, newTat := tat }
  else
    let newTat := max tat now + t
    { allowed := true, retry := 0, reset := newTat - now,
      remaining := max 0 ((b - (newTat - now)).fdiv t), newTat := newTat }

/-- Index of the first verdict with the largest retry (the spec's
matched index on rejection: "the rejecting rate with the largest
`retry_i`"; rejecting rates have positive retry, admitted rates zero). -/
def argmaxRetry (l : List RateVerdict) : Nat :=
  match l with
  | [] => 0
  | v :: _ =>
    (l.enum.foldl (fun a iv => if a.2 < iv.2.retry then (iv.1, iv.2.retry) else a)
      (0, v.retry)).1

/-- Index of the first verdict with the smallest remaining (the spec's
matched index on admission: "the rate with the smallest `remaining_i`"). -/
def argminRemaining (l : List RateVerdict) : Nat :=
  match l with
  | [] => 0
  | v :: _ =>
    (l.enum.foldl (fun a iv => if iv.2.remaining < a.2 then (iv.1, iv.2.remaining) else a)
      (0, v.remaining)).1

/-- Modelled from the spec: the multi-rate composition of the missing
`gcra.lua` script, §4.4 "Composition over multiple rates": evaluate all
rates without writing; if any rejects, return its verdict (largest
retry, `remaining = 0`) and write nothing; if all admit, write every
`new_TAT_i` and return the verdict of the tightest rate (smallest
remaining).  The returned index is 0-based as in the Python-level
five-tuple (`matched_rate_index`). -/
def scriptCheckPolicy (store : Store) (keys : List String) (tbs : List (Int × Int))
    (now : Int) : (Bool × Int × Int × Int × Nat) × Store :=
  let verdicts := (keys.zip tbs).map fun kv => gcraRate (store kv.1) kv.2.1 kv.2.2 now
  if verdicts.all (·.allowed) then
    let i := argminRemaining verdicts
    let v := (verdicts.get? i).getD ⟨true, 0, 0, 0, 0⟩
    let newStore : Store := fun k =>
      match (keys.zip verdicts).find? (fun kv => kv.1 = k) with
      | some kv => some kv.2.newTat
      | none => store k
    ((true, 0, v.reset, v.remaining, i), newStore)
  else
    let i := argmaxRetry verdicts
    let v := (verdicts.get? i).getD ⟨true, 0, 0, 0, 0⟩
    ((false, v.retry, v.reset, 0, i), store)

/-- Modelled from the spec: `SimpleRedisStorage.check_policy`, the
adapter operation invoked at `limiter.py:206` and patched by
`tests/test_multi_rate.py`, whose body is not under `src/`.  Per the
§4.3 invocation contract it takes the per-rate key list and the policy,
derives `(T_i, B_i)` from the rates, invokes the atomic script with the
adapter's clock `now_ms`, and returns the five-tuple
`(allowed, retry_after_ms, reset_ms, remaining, matched_index)`. -/
def SimpleRedisStorage.check_policy (store : Store) (keys : List String) (p : Policy)
    (now : Int) : (Bool × Int × Int × Int × Nat) × Store :=
  scriptCheckPolicy store keys
    (p.rates.map fun r => ((r.emission_interval_ms : Int), (r.burst_capacity_ms : Int))) now

/-- Repeated admission checks against one key list, threading the store
(back-to-back requests of the §8 scenarios). -/
def iterCheck (p : Policy) (keys : List String) :
    List Int → Store → List (Bool × Int × Int × Int × Nat) × Store
  | [], st => ([], st)
  | n :: ns, st =>
    let r := SimpleRedisStorage.check_policy st keys p n
    let rest := iterCheck p keys ns r.2
    (r.1 :: rest.1, rest.2)

/-! ## Character-level string helpers

Python's `str.split`, `str.startswith` and `str.strip` are modelled on
the character list underlying the string (the byte-position based
`String` primitives of Lean core are avoided so that every definition
evaluates inside the kernel). -/

/-- Python `str.split(sep)` for a one-character separator: the empty
string yields `[""]`, separators at the ends yield empty fields. -/
def splitChar (sep : Char) : List Char → List (List Char)
  | [] => [[]]
  | c :: cs =>
    if c = sep then [] :: splitChar sep cs
    else
      match splitChar sep cs with
      | g :: gs => (c :: g) :: gs
      | [] => [[c]]

/-- String-level wrapper of `splitChar`. -/
def strSplitChar (sep : Char) (s : String) : List String :=
  (splitChar sep s.data).map String.mk

/-- Python `str.startswith(p)`. -/
def strStartsWith (s p : String) : Bool :=
  p.data.isPrefixOf s.data

/-- Python `str.strip()` (on the ASCII whitespace the inputs here use). -/
def pyStrip (s : String) : String :=
  String.mk (((s.data.dropWhile Char.isWhitespace).reverse.dropWhile Char.isWhitespace).reverse)

/-! ## Model of the Python `ipaddress` library (used by `selectors.py`)

`_normalize_ip` calls the standard library's `ipaddress.ip_address`,
which tries `IPv4Address` then `IPv6Address` and renders the canonical
string.  The model below reproduces that library for plain IPv4
dotted-quads and RFC-4291 IPv6 text (including `%zone` suffixes, which
Python 3.9+ preserves); the IPv4-embedded IPv6 notation
(`::ffff:1.2.3.4`) is not modelled. -/

/-- One IPv4 octet: 1-3 ASCII digits, no leading zero, value ≤ 255. -/
def parseOctet (s : String) : Option Nat :=
  let cs := s.data
  if cs = [] then none
  else if ¬ cs.all Char.isDigit then none
  else if 3 < cs.length then none
  else if 1 < cs.length ∧ cs.headD '0' = '0' then none
  else
    let v := digitsVal cs
    if v ≤ 255 then some v else none

/-- Canonical form of an IPv4 address string, when valid. -/
def pyIPv4 (s : String) : Option String :=
  let parts := strSplitChar '.' s
  if parts.length = 4 then
    match parts.mapM parseOctet with
    | some os => some (String.intercalate "." (os.map toString))
    | none => none
  else none

/-- Value of a hexadecimal digit character. -/
def hexDigitVal (c : Char) : Option Nat :=
  if c.isDigit then some (c.toNat - '0'.toNat)
  else if 'a' ≤ c ∧ c ≤ 'f' then some (c.toNat - 'a'.toNat + 10)
  else if 'A' ≤ c ∧ c ≤ 'F' then some (c.toNat - 'A'.toNat + 10)
  else none

/-- One IPv6 hextet: 1-4 hexadecimal digits. -/
def parseHextet (s : String) : Option Nat :=
  let cs := s.data
  if cs = [] ∨ 4 < cs.length then none
  else
    cs.foldl
      (fun acc c =>
        match acc, hexDigitVal c with
        | some a, some d => some (a * 16 + d)
        | _, _ => none)
      (some 0)

/-- The eight 16-bit groups of an IPv6 address string, following
CPython's `_ip_int_from_string`: split on `:`, locate at most one `::`
gap, check the endpoint rules, and parse every hextet. -/
def pyIPv6Groups (s : String) : Option (List Nat) :=
  let parts := strSplitChar ':' s
  let n := parts.length
  if n < 3 ∨ 9 < n then none
  else
    let mids := (List.range n).filter fun i => 0 < i ∧ i + 1 < n ∧ parts.getD i "x" = ""
    match mids with
    | [] =>
      if n = 8 ∧ parts.getD 0 "x" ≠ "" ∧ parts.getD (n - 1) "x" ≠ "" then
        parts.mapM parseHextet
      else none
    | [k] =>
      let headEmpty := parts.getD 0 "x" = ""
      let lastEmpty := parts.getD (n - 1) "x" = ""
      if headEmpty ∧ k ≠ 1 then none
      else if lastEmpty ∧ n - k - 1 ≠ 1 then none
      else
        let hi := if headEmpty then k - 1 else k
        let lo := if lastEmpty then n - k - 2 else n - k - 1
        if 7 < hi + lo then none
        else
          match (parts.take hi).mapM parseHextet, (parts.drop (n - lo)).mapM parseHextet with
          | some hs, some ls => some (hs ++ List.replicate (8 - (hi + lo)) 0 ++ ls)
          | _, _ => none
    | _ => none

/-- First longest run of `"0"` hextets (start, length), as CPython's
`_compress_hextets` finds it. -/
def bestZeroRun (hx : List String) : Nat × Nat :=
  let st := hx.enum.foldl
    (fun st ih =>
      let curStart := st.1
      let curLen := st.2.1
      let best := st.2.2
      if ih.2 = "0" then
        let cs := if curLen = 0 then ih.1 else curStart
        let cl := curLen + 1
        if best.2 < cl then (cs, cl, cs, cl) else (cs, cl, best)
      else (0, 0, best))
    ((0, 0, 0, 0) : Nat × Nat × Nat × Nat)
  st.2.2

/-- RFC 5952 `::` compression of hextet strings (`_compress_hextets`). -/
def compressHextets (hx : List String) : String :=
  let b := bestZeroRun hx
  if 1 < b.2 then
    let endIdx := b.1 + b.2
    let hx1 := if endIdx = hx.length then hx ++ [""] else hx
    let hx2 := hx1.take b.1 ++ [""] ++ hx1.drop endIdx
    let hx3 := if b.1 = 0 then "" :: hx2 else hx2
    String.intercalate ":" hx3
  else String.intercalate ":" hx

/-- Canonical form of the eight groups of an IPv6 address. -/
def ipv6Canonical (gs : List Nat) : String :=
  compressHextets (gs.map fun g => String.mk (Nat.toDigits 16 g))

/-- Canonical form of an IPv6 address string, when valid; a `%zone`
suffix (non-empty, no further `%`) is preserved, as Python 3.9+ does. -/
def pyIPv6 (s : String) : Option String :=
  match strSplitChar '%' s with
  | [addr] => (pyIPv6Groups addr).map ipv6Canonical
  | [addr, zone] =>
    if zone = "" then none
    else (pyIPv6Groups addr).map fun gs => ipv6Canonical gs ++ "%" ++ zone
  | _ => none

/-- Model of `ipaddress.ip_address(s)` followed by `str(...)`:
IPv4 first, then IPv6; `none` is the `ValueError` branch. -/
def pyIpAddress (s : String) : Option String :=
  match pyIPv4 s with
  | some c => some c
  | none => pyIPv6 s

/-! ## Selectors (`selectors.py`) -/

/-- The pre-parse rewriting at the top of `_normalize_ip`'s `try:`
block: a string containing `:` that does not start with `[` loses
everything from its last `:` on (`ip_str.rsplit(":", 1)[0]`); a
bracketed string yields the text between `[` and the first `]`. -/
def stripPortLike (s : String) : String :=
  if s.data.contains ':' ∧ ¬ strStartsWith s "[" then
    String.mk (((s.data.reverse.dropWhile fun c => c ≠ ':').drop 1).reverse)
  else if strStartsWith s "[" ∧ s.data.contains ']' then
    String.mk ((s.data.drop 1).takeWhile fun c => c ≠ ']')
  else s

/-- Embedding of `_normalize_ip`: strip a port-like suffix, parse with
`ipaddress.ip_address`, and return the canonical form; on `ValueError`
return the string as it stands at that point (the stripped one). -/
def normalize_ip (s : String) : String :=
  let s2 := stripPortLike s
  match pyIpAddress s2 with
  | some canon => canon
  | none => s2

/-- The `request.client`/`request.client.host` fallback at the end of
`key_ip`. -/
def clientFallback (req : Request) : String :=
  match req.clientHost with
  | some h => if h ≠ "" then normalize_ip h else "unknown"
  | none => "unknown"

/-- Embedding of `key_ip`: `CF-Connecting-IP`, then `X-Real-IP`, then
the trimmed first hop of `X-Forwarded-For`, then the peer address, each
taken only when non-empty and passed through `_normalize_ip`; `"unknown"`
when nothing is available. -/
def key_ip (req : Request) : String :=
  let cf := (req.headers "CF-Connecting-IP").getD ""
  if cf ≠ "" then normalize_ip cf
  else
    let realIp := (req.headers "X-Real-IP").getD ""
    if realIp ≠ "" then normalize_ip realIp
    else
      let xff := (req.headers "X-Forwarded-For").getD ""
      if xff ≠ "" then
        let firstHop := pyStrip ((strSplitChar ',' xff).headD "")
        if firstHop ≠ "" then normalize_ip firstHop else clientFallback req
      else clientFallback req

/-- Embedding of `key_user` (`request.state.user_id`, then
`request.state.user.id`, then `request.user.id`, else `"anonymous"`);
the `.id` attribute chains return `str(user.id)` unconditionally. -/
def key_user (req : Request) : String :=
  let a := req.stateUserId.getD ""
  if a ≠ "" then a
  else
    match req.stateUserObjId with
    | some b => b
    | none =>
      match req.userObjId with
      | some c => c
      | none => "anonymous"

/-- Embedding of `key_org` (`request.state.org_id`, then
`request.state.organization_id`, then `request.state.org.id`, else
`"no_org"`). -/
def key_org (req : Request) : String :=
  let a := req.stateOrgId.getD ""
  if a ≠ "" then a
  else
    let b := req.stateOrganizationId.getD ""
    if b ≠ "" then b
    else
      match req.stateOrgObjId with
      | some c => c
      | none => "no_org"

/-! ## SHA-256 (`hashlib.sha256`, used by `_hash_key`) -/

/-- UTF-8 encoding of one character (`str.encode("utf-8")`). -/
def utf8Bytes (c : Char) : List Nat :=
  let n := c.toNat
  if n < 128 then [n]
  else if n < 2048 then [192 ||| (n >>> 6), 128 ||| (n &&& 63)]
  else if n < 65536 then
    [224 ||| (n >>> 12), 128 ||| ((n >>> 6) &&& 63), 128 ||| (n &&& 63)]
  else
    [240 ||| (n >>> 18), 128 ||| ((n >>> 12) &&& 63), 128 ||| ((n >>> 6) &&& 63),
      128 ||| (n &&& 63)]

/-- UTF-8 byte sequence of a string. -/
def utf8Encode (s : String) : List Nat :=
  s.data.flatMap utf8Bytes

/-- Two to the thirty-second power, the word modulus of SHA-256. -/
def w32 : Nat := 4294967296

/-- Addition modulo `2^32`. -/
def add32 (a b : Nat) : Nat := (a + b) % w32

/-- Right rotation of a 32-bit word. -/
def rotr32 (n x : Nat) : Nat := (x >>> n) ||| ((x <<< (32 - n)) % w32)

/-- SHA-256 round constants (FIPS 180-4 §4.2.2). -/
def sha256K : List Nat :=
  [1116352408, 1899447441, 3049323471, 3921009573, 961987163, 1508970993,
   2453635748, 2870763221, 3624381080, 310598401, 607225278, 1426881987,
   1925078388, 2162078206, 2614888103, 3248222580, 3835390401, 4022224774,
   264347078, 604807628, 770255983, 1249150122, 1555081692, 1996064986,
   2554220882, 2821834349, 2952996808, 3210313671, 3336571891, 3584528711,
   113926993, 338241895, 666307205, 773529912, 1294757372, 1396182291,
   1695183700, 1986661051, 2177026350, 2456956037, 2730485921, 2820302411,
   3259730800, 3345764771, 3516065817, 3600352804, 4094571909, 275423344,
   430227734, 506948616, 659060556, 883997877, 958139571, 1322822218,
   1537002063, 1747873779, 1955562222, 2024104815, 2227730452, 2361852424,
   2428436474, 2756734187, 3204031479, 3329325298]

/-- SHA-256 initial hash values (FIPS 180-4 §5.3.3). -/
def sha256H0 : List Nat :=
  [1779033703, 3144134277, 1013904242, 2773480762, 1359893119, 2600822924,
   528734635, 1541459225]

/-- Big-endian 32-bit words from a byte list. -/
def bytesToWords : List Nat → List Nat
  | b0 :: b1 :: b2 :: b3 :: rest =>
    (((b0 * 256 + b1) * 256 + b2) * 256 + b3) :: bytesToWords rest
  | _ => []

/-- Message-schedule extension: append `k` more words. -/
def extendW : Nat → List Nat → List Nat
  | 0, w => w
  | k + 1, w =>
    let t := w.length
    let x0 := w.getD (t - 15) 0
    let s0 := (rotr32 7 x0) ^^^ (rotr32 18 x0) ^^^ (x0 >>> 3)
    let x1 := w.getD (t - 2) 0
    let s1 := (rotr32 17 x1) ^^^ (rotr32 19 x1) ^^^ (x1 >>> 10)
    extendW k (w ++ [add32 (add32 (w.getD (t - 16) 0) s0) (add32 (w.getD (t - 7) 0) s1)])

/-- One SHA-256 compression round on the eight-word state. -/
def shaRound (st : List Nat) (kw : Nat × Nat) : List Nat :=
  match st with
  | [a, b, c, d, e, f, g, hh] =>
    let bigS1 := (rotr32 6 e) ^^^ (rotr32 11 e) ^^^ (rotr32 25 e)
    let ch := (e &&& f) ^^^ ((e ^^^ (w32 - 1)) &&& g)
    let t1 := add32 hh (add32 bigS1 (add32 ch (add32 kw.1 kw.2)))
    let bigS0 := (rotr32 2 a) ^^^ (rotr32 13 a) ^^^ (rotr32 22 a)
    let mj := (a &&& b) ^^^ (a &&& c) ^^^ (b &&& c)
    let t2 := add32 bigS0 mj
    [add32 t1 t2, a, b, c, add32 d t1, e, f, g]
  | _ => st

/-- Compression of one 64-byte block into the hash state. -/
def compressBlock (hv : List Nat) (block : List Nat) : List Nat :=
  let w := extendW 48 (bytesToWords block)
  let st := (sha256K.zip w).foldl shaRound hv
  (hv.zip st).map fun p => add32 p.1 p.2

/-- SHA-256 padding: `0x80`, zeros to 56 mod 64, 8-byte big-endian bit length. -/
def shaPad (m : List Nat) : List Nat :=
  let l := m.length
  let k := (120 - ((l + 1) % 64)) % 64
  let bits := l * 8
  m ++ 128 :: (List.replicate k 0 ++ [56, 48, 40, 32, 24, 16, 8, 0].map fun s => (bits >>> s) % 256)

/-- Split a byte list into 64-byte blocks. -/
def chunks64 (l : List Nat) : List (List Nat) :=
  if h : l = [] then []
  else
    have : (l.drop 64).length < l.length := by
      simp only [List.length_drop]
      have := List.length_pos.mpr h
      omega
    l.take 64 :: chunks64 (l.drop 64)
termination_by l.length

/-- The 32 digest bytes of a byte message. -/
def sha256Bytes (m : List Nat) : List Nat :=
  ((chunks64 (shaPad m)).foldl compressBlock sha256H0).flatMap
    fun wv => [(wv >>> 24) % 256, (wv >>> 16) % 256, (wv >>> 8) % 256, wv % 256]

/-- Lowercase hexadecimal rendering of one byte. -/
def toHex2 (b : Nat) : String :=
  String.mk [Nat.digitChar (b / 16), Nat.digitChar (b % 16)]

/-- Model of `hashlib.sha256(s.encode("utf-8")).hexdigest()`. -/
def sha256HexDigest (s : String) : String :=
  String.join ((sha256Bytes (utf8Encode s)).map toHex2)

/-- Embedding of `_hash_key`: `"empty"` for the empty string, otherwise
the first 32 hex characters of the SHA-256 of the key. -/
def hash_key (key : String) : String :=
  if key = "" then "empty" else (sha256HexDigest key).take 32

/-- The `api_key` query-parameter fallback at the end of `key_api_key`. -/
def keyApiKeyQuery (req : Request) : String :=
  let qp := (req.queryParams "api_key").getD ""
  if qp ≠ "" then hash_key qp else "no_api_key"

/-- Embedding of `key_api_key`: `X-API-Key` header, then the stripped
token of `Authorization: Bearer <t>`, then the `api_key` query
parameter, each hashed by `_hash_key`; `"no_api_key"` when absent. -/
def key_api_key (req : Request) : String :=
  let apiKey := (req.headers "X-API-Key").getD ""
  if apiKey ≠ "" then hash_key apiKey
  else
    let auth := (req.headers "Authorization").getD ""
    if strStartsWith auth "Bearer " then
      let token := pyStrip (auth.drop 7)
      if token ≠ "" then hash_key token else keyApiKeyQuery req
    else keyApiKeyQuery req

/-- Embedding of `get_selector` (`selectors.py`): the builtin lookup
table for string tags, the callable itself otherwise; `none` is the
`ValueError` raised for an unknown tag. -/
def get_selector : KeySpec → Option (Request → String)
  | .tag "ip" => some key_ip
  | .tag "api_key" => some key_api_key
  | .tag "user" => some key_user
  | .tag "org" => some key_org
  | .tag _ => none
  | .fn f => some f

/-! ## The limiter facade (`limiter.py`) -/

/-- Embedding of the dataclass `RateLimitResult`. -/
structure RateLimitResult where
  allowed : Bool
  retry_after_ms : Int
  reset_ms : Int
  remaining : Int
  matched_rate_index : Nat := 0
  deriving Repr, DecidableEq

/-- Embedding of `RateLimitResult.retry_after_seconds`:
`max(1, retry_after_ms // 1000)` (Python floor division). -/
def RateLimitResult.retry_after_seconds (r : RateLimitResult) : Int :=
  max 1 (r.retry_after_ms.fdiv 1000)

/-- Embedding of `RateLimitResult.reset_seconds`:
`max(1, reset_ms // 1000)`. -/
def RateLimitResult.reset_seconds (r : RateLimitResult) : Int :=
  max 1 (r.reset_ms.fdiv 1000)

/-- Embedding of `RateLimitResult.reset_timestamp`:
`int(time.time()) + reset_ms // 1000`, with the wall clock a parameter. -/
def RateLimitResult.reset_timestamp (r : RateLimitResult) (now_s : Int) : Int :=
  now_s + r.reset_ms.fdiv 1000

/-- The `fail_mode` constructor argument, validated to `open`/`closed`. -/
inductive FailMode where
  | failOpen
  | failClosed
  deriving Repr, DecidableEq

/-- The `route_scope` constructor argument, validated to
`route`/`method`/`app`. -/
inductive RouteScope where
  | route
  | method
  | app
  deriving Repr, DecidableEq

/-- The scope-mode string used in the generated keys. -/
def RouteScope.str : RouteScope → String
  | .route => "route"
  | .method => "method"
  | .app => "app"

/-- The configuration fields of `Limiter.__init__` that the admission
path reads (timeouts and the URL belong to the storage model). -/
structure LimiterConfig where
  default_policy : Option Policy
  fail_mode : FailMode
  app_name : String := "fastapi"
  route_scope : RouteScope := .route
  expose_headers : Bool := true
  legacy_timestamp_header : Bool := false
  expose_policy_header : Bool := false

/-- Embedding of `Limiter._get_scope`. -/
def getScope (cfg : LimiterConfig) (req : Request) : String :=
  match cfg.route_scope with
  | .app => "global"
  | .method => req.method ++ ":" ++ req.path
  | .route => req.path

/-- Error taxonomy of the store adapter (§7: transport, script,
protocol); any of them lands in the facade's `except` branch. -/
inductive StoreError where
  | unavailable
  | script
  | protocol
  deriving Repr, DecidableEq

/-- Observable side effects of one `Limiter.check_policy` call: the
implicit startup, the derived keys, whether the storage operation was
invoked, which observer hook ran, and the metric increments. -/
structure CheckTrace where
  startupInvoked : Bool
  derivedKeys : Option (List String)
  storageInvoked : Bool
  onDecisionInvoked : Bool
  onErrorInvoked : Bool
  allowedDelta : Nat
  blockedDelta : Nat
  errorsDelta : Nat
  deriving Repr, DecidableEq

/-- Outcome of `Limiter.check_policy`: either the `ValueError` that
propagates to the caller, or a returned result. -/
inductive CheckOutcome where
  | valueError
  | result : RateLimitResult → CheckOutcome
  deriving Repr, DecidableEq

/-- Embedding of the policy-resolution step of `Limiter.check_policy`
(lines 184-187): the argument if given, else the default. -/
def resolvePolicy (policyArg : Option Policy) (cfg : LimiterConfig) : Option Policy :=
  match policyArg with
  | some p => some p
  | none => cfg.default_policy

/-- Embedding of `Limiter.check_policy`.  `connected` is the
`_connected` flag (when false the call first runs `startup`, recorded
in the trace), `storageCheck` stands for the awaited
`self.storage.check_policy(keys=..., policy=...)` call, whose `.error`
case is the `except Exception` branch.  The trace records key
derivation, the storage invocation, hook invocations and metric
updates; hook exceptions are swallowed by the source and do not alter
the outcome. -/
def Limiter.check_policy (cfg : LimiterConfig) (connected : Bool) (req : Request)
    (policyArg : Option Policy) (scopeOverride : Option String)
    (storageCheck : List String → Policy → Except StoreError (Bool × Int × Int × Int × Nat)) :
    CheckOutcome × CheckTrace :=
  let su := !connected
  match resolvePolicy policyArg cfg with
  | none => (.valueError, ⟨su, none, false, false, false, 0, 0, 0⟩)
  | some policy =>
    match get_selector policy.key with
    | none => (.valueError, ⟨su, none, false, false, false, 0, 0, 0⟩)
    | some sel =>
      let principal := sel req
      let scope := scopeOverride.getD (getScope cfg req)
      let keys := policy.generate_keys cfg.app_name cfg.route_scope.str scope principal
      match storageCheck keys policy with
      | .ok t =>
        let res : RateLimitResult := ⟨t.1, t.2.1, t.2.2.1, t.2.2.2.1, t.2.2.2.2⟩
        (.result res,
          ⟨su, some keys, true, true, false, if t.1 then 1 else 0, if t.1 then 0 else 1, 0⟩)
      | .error _ =>
        match cfg.fail_mode with
        | .failOpen =>
          (.result ⟨true, 0, 0, (policy.maxPermits : Int), 0⟩,
            ⟨su, some keys, true, false, true, 0, 0, 1⟩)
        | .failClosed =>
          (.result ⟨false, 1000, 1000, 0, 0⟩,
            ⟨su, some keys, true, false, true, 0, 0, 1⟩)

/-- Embedding of `Limiter.add_headers` as the ordered list of header
assignments it performs; `none` is the `IndexError` raised when
`matched_rate_index` is out of range of `policy.rates`.  `now_s` is the
wall clock read by `reset_timestamp`. -/
def Limiter.add_headers (cfg : LimiterConfig) (result : RateLimitResult)
    (policyArg : Option Policy) (now_s : Int) : Option (List (String × String)) :=
  if !cfg.expose_headers then some []
  else
    match resolvePolicy policyArg cfg with
    | none => some []
    | some p =>
      match p.rates.get? result.matched_rate_index with
      | none => none
      | some matched_rate =>
        some
          ([("RateLimit-Limit", toString matched_rate.permits),
            ("RateLimit-Remaining", toString (max 0 result.remaining)),
            ("RateLimit-Reset", toString result.reset_seconds)]
          ++ (if cfg.legacy_timestamp_header then
                [("X-RateLimit-Reset", toString (result.reset_timestamp now_s))] else [])
          ++ (if cfg.expose_policy_header then
                [("X-RateLimit-Policy", p.describe)] else [])
          ++ (if !result.allowed then
                [("Retry-After", toString result.retry_after_seconds)] else []))

/-! ## Health probe (`Limiter.is_healthy`)

`Limiter.is_healthy` reads `self.storage.redis`; that attribute of the
storage adapter is referenced here and in the tests
(`tests/test_headers.py`, `tests/test_hooks.py`) but its definition is
not under `src/`, so it is modelled from the specification as the
underlying client handle, present once startup has connected. -/

/-- State of the storage adapter as the health probe sees it:
whether a client handle exists and whether a ping would return within
the command timeout. -/
structure StorageState where
  client : Option Unit
  pingOk : Bool
  deriving Repr, DecidableEq

/-- Modelled from the spec: the storage adapter's `redis` attribute,
the underlying client handle (absent before a successful connect). -/
def StorageState.redis (s : StorageState) : Option Unit := s.client

/-- Embedding of `Limiter.is_healthy`: false when not connected;
otherwise ping through `storage.redis` and return true on success,
false when the handle is absent or the ping raises. -/
def Limiter.is_healthy (connected : Bool) (storage : StorageState) : Bool :=
  if !connected then false
  else
    match storage.redis with
    | some _ => storage.pingOk
    | none => false

/-- Modelled from the spec: a successful `Limiter.startup` connects the
storage (client handle present) and sets `_connected`; `pingOk` is the
store's subsequent responsiveness. -/
def startupSuccess (pingOk : Bool) : Bool × StorageState :=
  (true, ⟨some (), pingOk⟩)

/-! ## Specification-side selector descriptions

The following definitions follow the words of the claims about the
builtin selectors (not the source); the claim theorems compare the
source embeddings against them. -/

/-- The client-address candidate in the words of claim C5 as amended:
the first non-empty entry among `CF-Connecting-IP`, `X-Real-IP`, the
trimmed first hop of `X-Forwarded-For`, and the peer address. -/
def ipCandidate (req : Request) : Option String :=
  let fromClient : Option String :=
    match req.clientHost with
    | some h => if h ≠ "" then some h else none
    | none => none
  let cf := (req.headers "CF-Connecting-IP").getD ""
  if cf ≠ "" then some cf
  else
    let realIp := (req.headers "X-Real-IP").getD ""
    if realIp ≠ "" then some realIp
    else
      let xff := (req.headers "X-Forwarded-For").getD ""
      let firstHop := pyStrip ((strSplitChar ',' xff).headD "")
      if xff ≠ "" ∧ firstHop ≠ "" then some firstHop
      else fromClient

/-- The ip selector in the words of claim C5 as amended: the chosen
string has a port-like suffix stripped (text after its last `:` when it
contains one and does not start with `[`; the bracketed body of
`[v6]:port` forms), is then parsed as IPv4/IPv6 and canonicalised, and
on parse failure the stripped string — not the raw input — is
returned; `"unknown"` when no candidate exists. -/
def keyIpSpecAmended (req : Request) : String :=
  match ipCandidate req with
  | some s =>
    let s2 := stripPortLike s
    match pyIpAddress s2 with
    | some canon => canon
    | none => s2
  | none => "unknown"

/-- The credential in the words of claim C6: the `X-API-Key` header
first, then the token of `Authorization: Bearer <t>`, then the
`api_key` query parameter. -/
def apiCredential (req : Request) : Option String :=
  let xk := (req.headers "X-API-Key").getD ""
  if xk ≠ "" then some xk
  else
    let auth := (req.headers "Authorization").getD ""
    let tok := if strStartsWith auth "Bearer " then pyStrip (auth.drop 7) else ""
    if tok ≠ "" then some tok
    else
      let qp := (req.queryParams "api_key").getD ""
      if qp ≠ "" then some qp else none

/-- The api_key selector in the words of claim C6: the first 32 hex
characters of the SHA-256 of the credential, or the literal
`"no_api_key"` when no credential is present. -/
def keyApiKeySpec (req : Request) : String :=
  match apiCredential req with
  | some cred => (sha256HexDigest cred).take 32
  | none => "no_api_key"

/-! ## Concrete fixtures for the closed instances -/

/-- A plain request without proxy headers. -/
def reqPlain : Request :=
  { headers := fun _ => none, queryParams := fun _ => none,
    clientHost := some "10.0.0.9", method := "GET", path := "/items" }

/-- A request whose `CF-Connecting-IP` header carries a bare (valid)
IPv6 address. -/
def reqCFv6 : Request :=
  { headers := fun h => if h = "CF-Connecting-IP" then some "::1" else none,
    queryParams := fun _ => none, clientHost := some "10.0.0.9",
    method := "GET", path := "/items" }

/-- A request whose `CF-Connecting-IP` header carries a malformed
address containing a colon. -/
def reqCFBad : Request :=
  { headers := fun h => if h = "CF-Connecting-IP" then some "a:b" else none,
    queryParams := fun _ => none, clientHost := some "10.0.0.9",
    method := "GET", path := "/items" }

/-- A single-rate burst policy (`Rate(10, "1s", burst=5)`). -/
def burstPolicy : Policy :=
  { rates := [⟨10, "1s", 5⟩], key := .tag "ip", name := "burst", max_rates := 3 }

/-- A limiter configuration with `burstPolicy` as default. -/
def cfg0 : LimiterConfig :=
  { default_policy := some burstPolicy, fail_mode := .failOpen }

/-- A limiter configuration without a default policy. -/
def cfgNoDefault : LimiterConfig :=
  { default_policy := none, fail_mode := .failOpen }

/-- The same configuration in fail-closed mode. -/
def cfgClosed : LimiterConfig :=
  { default_policy := some burstPolicy, fail_mode := .failClosed }

/-! ## Claim theorems -/

/-- C1: the store adapter exposes `check_policy`, taking the per-rate
key list and the policy and returning the five-tuple
`(allowed, retry_after_ms, reset_ms, remaining, matched_index)`; for an
admission check made while the limiter is connected whose adapter
invocation succeeds, the facade's verdict is exactly that five-tuple,
obtained from the invocation on the derived keys. -/
theorem c1_verdict_from_adapter
    (cfg : LimiterConfig) (req : Request) (policyArg : Option Policy)
    (scopeOverride : Option String) (store : Store) (now : Int)
    (policy : Policy) (sel : Request → String) (keys : List String)
    (t : Bool × Int × Int × Int × Nat)
    (hpol : resolvePolicy policyArg cfg = some policy)
    (hsel : get_selector policy.key = some sel)
    (hkeys : keys = policy.generate_keys cfg.app_name cfg.route_scope.str
      (scopeOverride.getD (getScope cfg req)) (sel req))
    (ht : (SimpleRedisStorage.check_policy store keys policy now).1 = t) :
    Limiter.check_policy cfg true req policyArg scopeOverride
        (fun ks p => Except.ok (SimpleRedisStorage.check_policy store ks p now).1)
      = (CheckOutcome.result ⟨t.1, t.2.1, t.2.2.1, t.2.2.2.1, t.2.2.2.2⟩,
          ⟨false, some keys, true, true, false,
            if t.1 then 1 else 0, if t.1 then 0 else 1, 0⟩) := by
  subst hkeys
  subst ht
  simp only [Limiter.check_policy, hpol, hsel]
  rfl

/-- Closed instance of C1: a first request through the facade with the
modelled adapter on the empty store returns the adapter's own verdict
`(true, 0, 100, 4, 0)` for the burst policy. -/
theorem c1_witness :
    Limiter.check_policy cfg0 true reqPlain (some burstPolicy) none
        (fun ks p => Except.ok (SimpleRedisStorage.check_policy Store.empty ks p 1000000).1)
      = (CheckOutcome.result ⟨true, 0, 100, 4, 0⟩,
          ⟨false, some ["fastapi:route:\x7b/items\x7d:10.0.0.9:r0:10/1s"], true, true, false,
            1, 0, 0⟩) :=
  c1_verdict_from_adapter cfg0 reqPlain (some burstPolicy) none Store.empty 1000000
    burstPolicy key_ip ["fastapi:route:\x7b/items\x7d:10.0.0.9:r0:10/1s"] (true, 0, 100, 4, 0)
    rfl rfl (by decide) (by decide)

/-- C2: the single-rate GCRA step — with the stored TAT (defaulting to
`now_ms` when absent): rejection when `now_ms < TAT − B` with
`retry = (TAT − B) − now`, `reset = TAT − now`, `remaining = 0`;
admission otherwise with `new_TAT = max(TAT, now) + T`,
`reset = new_TAT − now` and `remaining = ⌊(B − (new_TAT − now))/T⌋`
clamped to ≥ 0 — and the concrete burst scenario: for rate
`(10, "1s", burst=5)` on an empty store, six back-to-back requests at
`1_000_000…1_000_005` admit and the seventh at `1_000_006` rejects with
`retry_after_ms = 94`. -/
theorem c2_gcra_single_rate :
    (∀ (tatOpt : Option Int) (t b now : Int), 0 < t →
      (now < tatOpt.getD now - b →
        gcraRate tatOpt t b now =
          ⟨false, (tatOpt.getD now - b) - now, tatOpt.getD now - now, 0, tatOpt.getD now⟩) ∧
      (¬ now < tatOpt.getD now - b →
        gcraRate tatOpt t b now =
          ⟨true, 0, (max (tatOpt.getD now) now + t) - now,
            max 0 ((b - ((max (tatOpt.getD now) now + t) - now)).fdiv t),
            max (tatOpt.getD now) now + t⟩)) ∧
    ((iterCheck burstPolicy ["k"]
        [1000000, 1000001, 1000002, 1000003, 1000004, 1000005] Store.empty).1.all
        (fun t => t.1 = true) = true ∧
      (SimpleRedisStorage.check_policy
          (iterCheck burstPolicy ["k"]
            [1000000, 1000001, 1000002, 1000003, 1000004, 1000005] Store.empty).2
          ["k"] burstPolicy 1000006).1 = (false, 94, 594, 0, 0)) := by
  refine ⟨?_, by decide, by decide⟩
  intro tatOpt t b now ht
  constructor <;> intro h <;> simp [gcraRate, h]

/-- Closed instance of C2: the rejection equation at the state reached
after the six admissions (`TAT = 1_000_600`, `T = 100`, `B = 500`,
`now = 1_000_006`). -/
theorem c2_witness :
    gcraRate (some 1000600) 100 500 1000006 = ⟨false, 94, 594, 0, 1000600⟩ :=
  (c2_gcra_single_rate.1 (some 1000600) 100 500 1000006 (by decide)).1 (by decide)

/-- C3: when the store invocation raises, the facade invokes the
`on_error` hook and applies the fail mode: fail-open returns
`allowed = true`, `retry_after_ms = 0` and `remaining` equal to the
maximum permits over the policy's rates; fail-closed returns
`allowed = false` with `retry_after_ms = 1000` and `reset_ms = 1000`. -/
theorem c3_fail_mode
    (cfg : LimiterConfig) (connected : Bool) (req : Request) (policyArg : Option Policy)
    (scopeOverride : Option String) (e : StoreError) (policy : Policy) (sel : Request → String)
    (hpol : resolvePolicy policyArg cfg = some policy)
    (hsel : get_selector policy.key = some sel) :
    ((Limiter.check_policy cfg connected req policyArg scopeOverride
        fun _ _ => Except.error e).2.onErrorInvoked = true) ∧
    (cfg.fail_mode = .failOpen →
      (Limiter.check_policy cfg connected req policyArg scopeOverride
          fun _ _ => Except.error e).1
        = .result ⟨true, 0, 0, (policy.maxPermits : Int), 0⟩) ∧
    (cfg.fail_mode = .failClosed →
      (Limiter.check_policy cfg connected req policyArg scopeOverride
          fun _ _ => Except.error e).1
        = .result ⟨false, 1000, 1000, 0, 0⟩) := by
  cases hfm : cfg.fail_mode <;>
    simp [Limiter.check_policy, hpol, hsel, hfm]

/-- Closed instance of C3: with a fail-closed limiter and an
unavailable store, the check rejects with the 1000 ms defaults and the
error hook ran. -/
theorem c3_witness :
    (Limiter.check_policy cfgClosed true reqPlain (some burstPolicy) none
        fun _ _ => Except.error .unavailable).1
      = .result ⟨false, 1000, 1000, 0, 0⟩ ∧
    (Limiter.check_policy cfgClosed true reqPlain (some burstPolicy) none
        fun _ _ => Except.error .unavailable).2.onErrorInvoked = true := by
  have h := c3_fail_mode cfgClosed true reqPlain (some burstPolicy) none .unavailable
    burstPolicy key_ip rfl rfl
  exact ⟨h.2.2 rfl, h.1⟩

/-- C4: the health probe returns true exactly when the limiter is
connected (startup succeeded), the storage client handle exists and the
ping succeeds within the command timeout; in particular it returns true
after a successful startup with a responsive store. -/
theorem c4_health_probe :
    (∀ (connected : Bool) (storage : StorageState),
      Limiter.is_healthy connected storage =
        (connected && storage.redis.isSome && storage.pingOk)) ∧
    Limiter.is_healthy (startupSuccess true).1 (startupSuccess true).2 = true := by
  refine ⟨?_, rfl⟩
  intro connected storage
  rcases storage with ⟨c, p⟩
  cases connected <;> cases c <;> cases p <;> rfl

/-- C10: a check with no policy argument on a limiter without a default
policy raises `ValueError` having derived no keys, invoked no storage
operation, run no observer hook and changed no metric counter. -/
theorem c10_missing_policy
    (cfg : LimiterConfig) (connected : Bool) (req : Request) (scopeOverride : Option String)
    (storageCheck : List String → Policy → Except StoreError (Bool × Int × Int × Int × Nat))
    (hdef : cfg.default_policy = none) :
    Limiter.check_policy cfg connected req none scopeOverride storageCheck
      = (.valueError, ⟨!connected, none, false, false, false, 0, 0, 0⟩) := by
  simp [Limiter.check_policy, resolvePolicy, hdef]

/-- Closed instance of C10 on the connected default-free limiter. -/
theorem c10_witness :
    Limiter.check_policy cfgNoDefault true reqPlain none none
        (fun _ _ => Except.error .unavailable)
      = (.valueError, ⟨false, none, false, false, false, 0, 0, 0⟩) :=
  c10_missing_policy cfgNoDefault true reqPlain none _ rfl

/-- C5 fails as stated: `"::1"` is a valid IPv6 address whose canonical
form is `"::1"`, yet the ip selector returns `":"` (the last-colon
stripping mangles bare IPv6 before parsing); and for the malformed
input `"a:b"` the selector returns `"a"`, not the raw string
unmodified. -/
theorem c5_counterexample :
    key_ip reqCFv6 = ":" ∧ pyIpAddress "::1" = some "::1" ∧
    key_ip reqCFBad = "a" ∧ pyIpAddress "a:b" = none ∧ pyIpAddress "a" = none := by
  refine ⟨by decide, by decide, by decide, by decide, by decide⟩

/-- C5 as amended: the ip selector prefers `CF-Connecting-IP`, then
`X-Real-IP`, then the trimmed first hop of `X-Forwarded-For`, and falls
back to the peer address; the chosen string first has a port-like
suffix stripped (everything from its last `:` when it contains one and
does not start with `[`; the bracketed body for `[v6]:port`), is then
parsed as IPv4/IPv6 and canonicalised, and on parse failure the
stripped string (not the raw input) is returned; `"unknown"` when no
candidate exists. -/
theorem c5_amended_key_ip (req : Request) : key_ip req = keyIpSpecAmended req := by
  unfold key_ip keyIpSpecAmended ipCandidate clientFallback normalize_ip
  dsimp only []
  cases hch : req.clientHost <;> split_ifs <;> simp_all <;> split_ifs <;> simp_all

/-- Helper: one rate's key cannot equal another's when the character
after the `":r"` marker differs. -/
lemma key_data_ne (b : List Char) {ci cj : Char} (hne : ci ≠ cj) (x y : List Char) :
    b ++ ':' :: 'r' :: ci :: x ≠ b ++ ':' :: 'r' :: cj :: y := by
  intro h
  have h2 := List.append_cancel_left h
  simp only [List.cons.injEq] at h2
  exact hne h2.2.2.1

/-- Helper: character decomposition of the per-rate key layout. -/
lemma key_formula_data (app mode scope principal : String) (i : Nat) (r : Rate) :
    (app ++ ":" ++ mode ++ ":\x7b" ++ scope ++ "\x7d:" ++ principal ++ ":r" ++ toString i ++ ":"
      ++ toString r.permits ++ "/" ++ r.per).data
    = (app ++ ":" ++ mode ++ ":\x7b" ++ scope ++ "\x7d:" ++ principal).data
      ++ ':' :: 'r' :: ((toString i).data ++ ':' :: ((toString r.permits).data ++ '/' :: r.per.data)) := by
  simp [String.data_append, List.append_assoc]

/-- Helper: the i-th generated key follows the per-rate layout. -/
lemma generate_keys_getElem (p : Policy) (app mode scope principal : String) (i : Nat) (r : Rate)
    (hr : p.rates[i]? = some r) :
    (p.generate_keys app mode scope principal)[i]? =
      some (app ++ ":" ++ mode ++ ":\x7b" ++ scope ++ "\x7d:" ++ principal ++ ":r" ++ toString i ++ ":"
        ++ toString r.permits ++ "/" ++ r.per) := by
  simp [Policy.generate_keys, List.getElem?_map, List.getElem?_enum, hr]

/-- Helper: decimal rendering of the small rate indices. -/
lemma tosData0 : (toString (0 : Nat)).data = ['0'] := rfl

/-- Helper: decimal rendering of the small rate indices. -/
lemma tosData1 : (toString (1 : Nat)).data = ['1'] := rfl

/-- Helper: decimal rendering of the small rate indices. -/
lemma tosData2 : (toString (2 : Nat)).data = ['2'] := rfl

/-- C7: for a policy with at most the spec's three rates, key
derivation returns exactly one key per rate; the i-th key has the
layout `{app}:{scope_mode}:{scope-in-braces}:{principal}:r{i}:{permits}/{period}`
with the hash-tag braces wrapping the scope string, not the principal;
and the keys are pairwise distinct, every rate getting its own `r{i}`
slot under the shared tag. -/
theorem c7_generate_keys (p : Policy) (app mode scope principal : String)
    (h3 : p.rates.length ≤ 3) :
    (p.generate_keys app mode scope principal).length = p.rates.length ∧
    (∀ (i : Nat) (r : Rate), p.rates[i]? = some r →
      (p.generate_keys app mode scope principal)[i]? =
        some (app ++ ":" ++ mode ++ ":\x7b" ++ scope ++ "\x7d:" ++ principal ++ ":r" ++ toString i
          ++ ":" ++ toString r.permits ++ "/" ++ r.per)) ∧
    (p.generate_keys app mode scope principal).Nodup := by
  have hlen : (p.generate_keys app mode scope principal).length = p.rates.length := by
    simp [Policy.generate_keys, List.enum_length]
  refine ⟨hlen, fun i r hr => generate_keys_getElem p app mode scope principal i r hr, ?hnd⟩
  rw [List.nodup_iff_getElem?_ne_getElem?]
  intro i j hij hj
  rw [hlen] at hj
  have hi : i < p.rates.length := lt_trans hij hj
  have hri : p.rates[i]? = some (p.rates[i]) := List.getElem?_eq_getElem hi
  have hrj : p.rates[j]? = some (p.rates[j]) := List.getElem?_eq_getElem hj
  rw [generate_keys_getElem p app mode scope principal i _ hri,
      generate_keys_getElem p app mode scope principal j _ hrj]
  intro hcon
  rw [Option.some.injEq] at hcon
  have hd := congrArg String.data hcon
  rw [key_formula_data, key_formula_data] at hd
  have hj3 : j < 3 := lt_of_lt_of_le hj h3
  interval_cases j <;> interval_cases i <;>
    simp only [tosData0, tosData1, tosData2, List.cons_append, List.nil_append] at hd <;>
    exact key_data_ne _ (by decide) _ _ hd

/-- Closed instance of C7: a two-rate policy yields two distinct keys
of the stated layout. -/
theorem c7_witness :
    ((Policy.mk [⟨10, "1s", 5⟩, ⟨100, "1m", 0⟩] (.tag "ip") "two" 3).generate_keys
        "fastapi" "route" "/items" "10.0.0.9").length = 2 ∧
    ((Policy.mk [⟨10, "1s", 5⟩, ⟨100, "1m", 0⟩] (.tag "ip") "two" 3).generate_keys
        "fastapi" "route" "/items" "10.0.0.9").Nodup := by
  have h := c7_generate_keys (Policy.mk [⟨10, "1s", 5⟩, ⟨100, "1m", 0⟩] (.tag "ip") "two" 3)
    "fastapi" "route" "/items" "10.0.0.9" (by decide)
  exact ⟨h.1, h.2.2⟩

/-- Helper: `spanDigits` passes over a leading block of digits. -/
lemma spanDigits_all (ds rest : List Char) (h : ds.all Char.isDigit = true) :
    spanDigits (ds ++ rest) = (ds ++ (spanDigits rest).1, (spanDigits rest).2) := by
  induction ds with
  | nil => simp
  | cons c cs ih =>
    simp only [List.all_cons, Bool.and_eq_true] at h
    simp [spanDigits, h.1, ih h.2]

/-- Helper: `spanDigits` stops at a non-digit. -/
lemma spanDigits_stop (c : Char) (rest : List Char) (h : ¬ c.isDigit) :
    spanDigits (c :: rest) = ([], c :: rest) := by
  simp [spanDigits, h]

/-- Helper: the unit suffixes with a multiplier are exactly s, m, h, d. -/
lemma unitMult_chars (u : Char) (m : Nat) (h : unitMult u = some m) :
    u = 's' ∨ u = 'm' ∨ u = 'h' ∨ u = 'd' := by
  unfold unitMult at h
  split at h <;> simp_all

/-- Helper: `log2F` computes the floor logarithm once the fuel covers it. -/
lemma log2F_spec (fuel : Nat) : ∀ n : Nat, 1 ≤ n → n ≤ 2 ^ fuel →
    2 ^ log2F fuel n ≤ n ∧ n < 2 ^ (log2F fuel n + 1) := by
  induction fuel with
  | zero =>
    intro n h1 h2
    simp only [pow_zero] at h2
    have : n = 1 := le_antisymm h2 h1
    subst this
    simp [log2F]
  | succ f ih =>
    intro n h1 h2
    by_cases h : n < 2
    · have : n = 1 := by omega
      subst this
      simp [log2F]
    · have h2' : n / 2 ≤ 2 ^ f := by
        have : n ≤ 2 * 2 ^ f := by
          have := pow_succ 2 f
          omega
        omega
      have h1' : 1 ≤ n / 2 := by omega
      obtain ⟨lo, hi⟩ := ih (n / 2) h1' h2'
      have hrw : log2F (f + 1) n = 1 + log2F f (n / 2) := by
        simp [log2F, h]
      rw [hrw]
      have e1 : 2 ^ (1 + log2F f (n / 2)) = 2 * 2 ^ log2F f (n / 2) := by
        rw [pow_add, pow_one]
      have e2 : 2 ^ (1 + log2F f (n / 2) + 1) = 2 * 2 ^ (log2F f (n / 2) + 1) := by
        rw [add_assoc, pow_add, pow_one]
      omega

/-- Helper: the window property of `natLog2`. -/
lemma natLog2_spec (n : Nat) (h : 1 ≤ n) :
    2 ^ natLog2 n ≤ n ∧ n < 2 ^ (natLog2 n + 1) :=
  log2F_spec n n h (le_of_lt (Nat.lt_two_pow n))

/-- Helper: the window determines `natLog2`. -/
lemma natLog2_eq_of (n e : Nat) (h1 : 2 ^ e ≤ n) (h2 : n < 2 ^ (e + 1)) :
    natLog2 n = e := by
  have hn : 1 ≤ n := le_trans (Nat.one_le_two_pow) h1
  obtain ⟨lo, hi⟩ := natLog2_spec n hn
  rcases lt_trichotomy (natLog2 n) e with hlt | heq | hgt
  · exfalso
    have : 2 ^ (natLog2 n + 1) ≤ 2 ^ e := Nat.pow_le_pow_right (by norm_num) (by omega)
    omega
  · exact heq
  · exfalso
    have : 2 ^ (e + 1) ≤ 2 ^ natLog2 n := Nat.pow_le_pow_right (by norm_num) (by omega)
    omega

/-- Helper: rounding is exact on an integer quotient. -/
lemma roundHalfEven_exact (n d : Nat) (hd : 0 < d) (h : d ∣ n) :
    roundHalfEven n d = n / d := by
  obtain ⟨c, rfl⟩ := h
  unfold roundHalfEven
  simp [Nat.mul_mod_right, hd]

/-- Helper: `round53` on a value `w` scaled by `2^s` over `2^s`, for
`w < 2^53`, keeps the exact mantissa. -/
lemma round53_pow2 (w s : Nat) (hw : 1 ≤ w) (hw53 : w < 2 ^ 53) :
    round53 (w * 2 ^ s) (2 ^ s) = (w * 2 ^ (52 - natLog2 w), (natLog2 w : Int) - 52) := by
  obtain ⟨lo, hi⟩ := natLog2_spec w hw
  have hL52 : natLog2 w ≤ 52 := by
    by_contra hcon
    have hp : 2 ^ 53 ≤ 2 ^ natLog2 w := Nat.pow_le_pow_right (by norm_num) (by omega)
    omega
  have hp2 : (0:Nat) < 2 ^ s := Nat.pos_pow_of_pos s (by norm_num)
  have hla : natLog2 (w * 2 ^ s) = natLog2 w + s := by
    apply natLog2_eq_of
    · rw [pow_add]
      exact Nat.mul_le_mul_right _ lo
    · have e : 2 ^ (natLog2 w + s + 1) = 2 ^ (natLog2 w + 1) * 2 ^ s := by ring
      rw [e]
      exact (Nat.mul_lt_mul_right hp2).mpr hi
  have hlb : natLog2 (2 ^ s) = s :=
    natLog2_eq_of _ _ (le_refl _) (Nat.pow_lt_pow_right (by norm_num) (by omega))
  have hfalse : pow2Le ((natLog2 w : Int) + 1) (w * 2 ^ s) (2 ^ s) = false := by
    unfold pow2Le
    have h0 : (0:Int) ≤ (natLog2 w : Int) + 1 := by omega
    have ht : ((natLog2 w : Int) + 1).toNat = natLog2 w + 1 := by omega
    simp only [h0, if_true, ht, decide_eq_false_iff_not, Nat.not_le]
    calc w * 2 ^ s < 2 ^ (natLog2 w + 1) * 2 ^ s := (Nat.mul_lt_mul_right hp2).mpr hi
      _ = 2 ^ s * 2 ^ (natLog2 w + 1) := by ring
  have htrue : pow2Le ((natLog2 w : Int)) (w * 2 ^ s) (2 ^ s) = true := by
    unfold pow2Le
    have h0 : (0:Int) ≤ (natLog2 w : Int) := by omega
    have ht : ((natLog2 w : Int)).toNat = natLog2 w := by omega
    simp only [h0, if_true, ht, decide_eq_true_eq]
    calc 2 ^ s * 2 ^ natLog2 w = 2 ^ natLog2 w * 2 ^ s := by ring
      _ ≤ w * 2 ^ s := Nat.mul_le_mul_right _ lo
  have hrat : ratLog2 (w * 2 ^ s) (2 ^ s) = (natLog2 w : Int) := by
    unfold ratLog2
    rw [hla, hlb]
    have hd : ((natLog2 w + s : Nat) : Int) - (s : Int) = (natLog2 w : Int) := by
      push_cast
      ring
    simp only [hd, hfalse, htrue, Bool.false_eq_true, if_false, if_true]
  unfold round53
  rw [hrat]
  have hsh : (0:Int) ≤ 52 - (natLog2 w : Int) := by omega
  have hshn : ((52 : Int) - (natLog2 w : Int)).toNat = 52 - natLog2 w := by omega
  simp only [hsh, if_true, hshn]
  congr 1
  have hdvd : 2 ^ s ∣ w * 2 ^ s * 2 ^ (52 - natLog2 w) :=
    ⟨w * 2 ^ (52 - natLog2 w), by ring⟩
  rw [roundHalfEven_exact _ _ hp2 hdvd]
  have e : w * 2 ^ s * 2 ^ (52 - natLog2 w) = w * 2 ^ (52 - natLog2 w) * 2 ^ s := by ring
  rw [e, Nat.mul_div_cancel _ hp2]

/-- Helper: the conversion pipeline is the exact product when it stays
below `2^53`. -/
lemma pyDurationMs_exact (v mult : Nat) (h : v * mult < 2 ^ 53) :
    pyDurationMs v 1 mult = v * mult := by
  rcases Nat.eq_zero_or_pos v with hv | hv
  · subst hv
    simp [pyDurationMs, pyFloatOfDec, pyFloatMulNat, pyTrunc]
  rcases Nat.eq_zero_or_pos mult with hm | hm
  · subst hm
    simp [pyDurationMs, pyFloatOfDec, pyFloatMulNat, pyTrunc]
  have hv53 : v < 2 ^ 53 := lt_of_le_of_lt (Nat.le_mul_of_pos_right v hm) h
  have hL52 : natLog2 v ≤ 52 := by
    obtain ⟨lo, hi⟩ := natLog2_spec v hv
    by_contra hcon
    have hp : 2 ^ 53 ≤ 2 ^ natLog2 v := Nat.pow_le_pow_right (by norm_num) (by omega)
    omega
  have hvm : 1 ≤ v * mult := Nat.mul_pos hv hm
  have hL252 : natLog2 (v * mult) ≤ 52 := by
    obtain ⟨lo, hi⟩ := natLog2_spec (v * mult) hvm
    by_contra hcon
    have hp : 2 ^ 53 ≤ 2 ^ natLog2 (v * mult) := Nat.pow_le_pow_right (by norm_num) (by omega)
    omega
  have hstep1 : pyFloatOfDec v 1 = (v * 2 ^ (52 - natLog2 v), (natLog2 v : Int) - 52) := by
    unfold pyFloatOfDec
    have hnz : v ≠ 0 := by omega
    simp only [hnz, if_false]
    have e := round53_pow2 v 0 hv hv53
    simpa using e
  have hstep2 : pyFloatMulNat (v * 2 ^ (52 - natLog2 v), (natLog2 v : Int) - 52) mult
      = (v * mult * 2 ^ (52 - natLog2 (v * mult)), (natLog2 (v * mult) : Int) - 52) := by
    have hpos : 0 < v * 2 ^ (52 - natLog2 v) * mult :=
      Nat.mul_pos (Nat.mul_pos hv (Nat.pos_pow_of_pos _ (by norm_num))) hm
    have hnz : v * 2 ^ (52 - natLog2 v) * mult ≠ 0 := by omega
    simp only [pyFloatMulNat]
    rw [if_neg hnz]
    by_cases hL : natLog2 v = 52
    · rw [hL]
      have h0 : (0:Int) ≤ ((52:Nat):Int) - 52 := by omega
      rw [if_pos h0]
      have ht0 : ((((52:Nat):Int)) - 52).toNat = 0 := by omega
      rw [ht0]
      have ha : v * 2 ^ (52 - 52) * mult * 2 ^ 0 = v * mult * 2 ^ 0 := by norm_num
      rw [ha, show (1:Nat) = 2 ^ 0 from rfl]
      exact round53_pow2 (v * mult) 0 hvm h
    · have hlt : ¬ (0:Int) ≤ (natLog2 v : Int) - 52 := by omega
      simp only [hlt, if_false]
      have hneg : (-((natLog2 v : Int) - 52)).toNat = 52 - natLog2 v := by omega
      rw [hneg]
      have ha : v * 2 ^ (52 - natLog2 v) * mult = v * mult * 2 ^ (52 - natLog2 v) := by ring
      rw [ha, round53_pow2 (v * mult) (52 - natLog2 v) hvm h]
  have hstep3 : pyTrunc (v * mult * 2 ^ (52 - natLog2 (v * mult)),
      (natLog2 (v * mult) : Int) - 52) = v * mult := by
    simp only [pyTrunc]
    by_cases hL2 : natLog2 (v * mult) = 52
    · rw [hL2]
      norm_num
    · have hlt : ¬ (0:Int) ≤ (natLog2 (v * mult) : Int) - 52 := by omega
      simp only [hlt, if_false]
      have hneg : (-((natLog2 (v * mult) : Int) - 52)).toNat = 52 - natLog2 (v * mult) := by
        omega
      rw [hneg, Nat.mul_div_cancel _ (Nat.pos_pow_of_pos (52 - natLog2 (v * mult)) (by norm_num))]
  unfold pyDurationMs
  rw [hstep1, hstep2, hstep3]

/-- C8 fails as stated: the source converts `"1.001s"` through IEEE
double arithmetic to `int(float("1.001") * 1000) = 1000` milliseconds,
while the claim's exact multiply-then-truncate gives 1001 (likewise
`"1.001m"` gives 60059, not 60060). -/
theorem c8_counterexample :
    parseDuration "1.001s" = some 1000 ∧
    digitsVal ['1', '0', '0', '1'] * 1000 / 10 ^ 3 = 1001 ∧
    parseDuration "1.001m" = some 60059 ∧
    digitsVal ['1', '0', '0', '1'] * 60000 / 10 ^ 3 = 60060 := by
  refine ⟨by decide, by decide, by decide, by decide⟩

/-- C8 as amended: a period string matching `^(\d+(\.\d+)?)(s|m|h|d)$`
is converted by parsing the value as the nearest binary64 double,
multiplying by 1000 / 60 000 / 3 600 000 / 86 400 000 in double
arithmetic, and truncating toward zero; this coincides with the exact
multiply-then-truncate for every integer-valued duration whose product
stays below `2^53`; and the derived quantities satisfy exactly
`T = P / permits` (integer truncation), `B = burst · T` and
`τ = max(P + B, 2·P)`. -/
theorem c8_rate_derivation :
    (∀ (ds fs : List Char) (u : Char) (mult : Nat),
      ds ≠ [] → ds.all Char.isDigit = true → unitMult u = some mult →
      parseDuration (String.mk (ds ++ [u])) = some (pyDurationMs (digitsVal ds) 1 mult) ∧
      (fs ≠ [] → fs.all Char.isDigit = true →
        parseDuration (String.mk (ds ++ '.' :: (fs ++ [u]))) =
          some (pyDurationMs (digitsVal (ds ++ fs)) (10 ^ fs.length) mult))) ∧
    (∀ (ds : List Char) (u : Char) (mult : Nat),
      ds ≠ [] → ds.all Char.isDigit = true → unitMult u = some mult →
      digitsVal ds * mult < 2 ^ 53 →
      parseDuration (String.mk (ds ++ [u])) = some (digitsVal ds * mult)) ∧
    (unitMult 's' = some 1000 ∧ unitMult 'm' = some 60000 ∧
      unitMult 'h' = some 3600000 ∧ unitMult 'd' = some 86400000) ∧
    (∀ (r : Rate) (P : Nat), parseDuration r.per = some P →
      r.emission_interval_ms = P / r.permits ∧
      r.burst_capacity_ms = r.burst * (P / r.permits) ∧
      r.ttl_ms = max (P + r.burst * (P / r.permits)) (2 * P)) := by
  have hshape : ∀ (ds fs : List Char) (u : Char) (mult : Nat),
      ds ≠ [] → ds.all Char.isDigit = true → unitMult u = some mult →
      parseDuration (String.mk (ds ++ [u])) = some (pyDurationMs (digitsVal ds) 1 mult) ∧
      (fs ≠ [] → fs.all Char.isDigit = true →
        parseDuration (String.mk (ds ++ '.' :: (fs ++ [u]))) =
          some (pyDurationMs (digitsVal (ds ++ fs)) (10 ^ fs.length) mult)) := by
    intro ds fs u mult hne hdig hu
    have hu4 := unitMult_chars u mult hu
    rcases hu4 with h | h | h | h <;> subst h <;>
      simp only [unitMult, Option.some.injEq] at hu <;> subst hu <;>
      refine ⟨?_, fun hfne hfdig => ?_⟩ <;>
      simp only [parseDuration]
    all_goals first
      | (rw [spanDigits_all ds _ hdig, spanDigits_stop _ [] (by decide)]
         simp [hne, unitMult])
      | (rw [spanDigits_all ds _ hdig, spanDigits_stop '.' _ (by decide)]
         simp only []
         rw [spanDigits_all fs _ hfdig, spanDigits_stop _ [] (by decide)]
         simp [hne, hfne, unitMult])
  refine ⟨hshape, ?_, by decide, ?_⟩
  · intro ds u mult hne hdig hu hsmall
    rw [(hshape ds [] u mult hne hdig hu).1, pyDurationMs_exact (digitsVal ds) mult hsmall]
  · intro r P hP
    simp [Rate.emission_interval_ms, Rate.burst_capacity_ms, Rate.ttl_ms, Rate.period_ms,
      hP, Nat.mul_comm]

/-- Closed instance of C8: `"1s"` parses to 1000 ms (the double
computation being exact there) and the derived quantities of
`Rate(10, "1s", burst=5)` follow the formulas. -/
theorem c8_witness :
    parseDuration (String.mk (['1'] ++ ['s'])) = some (digitsVal ['1'] * 1000) ∧
    (Rate.mk 10 "1s" 5).emission_interval_ms = 1000 / 10 ∧
    (Rate.mk 10 "1s" 5).burst_capacity_ms = 5 * (1000 / 10) ∧
    (Rate.mk 10 "1s" 5).ttl_ms = max (1000 + 5 * (1000 / 10)) (2 * 1000) := by
  refine ⟨c8_rate_derivation.2.1 ['1'] 's' 1000 (by decide) (by decide) (by decide) (by decide), ?_⟩
  exact c8_rate_derivation.2.2.2 (Rate.mk 10 "1s" 5) 1000 (by decide)

/-- C9: with headers exposed and the matched index in range, applying
headers sets `RateLimit-Limit` to the permits of the matched rate,
`RateLimit-Remaining` to `max(0, remaining)` (never negative),
`RateLimit-Reset` to a delta-seconds value of at least 1, and sets
`Retry-After` (a delta-seconds value of at least 1) exactly when the
result is a rejection. -/
theorem c9_headers (cfg : LimiterConfig) (result : RateLimitResult) (policyArg : Option Policy)
    (p : Policy) (matched : Rate) (now_s : Int)
    (hexp : cfg.expose_headers = true)
    (hp : resolvePolicy policyArg cfg = some p)
    (hm : p.rates.get? result.matched_rate_index = some matched) :
    ∃ hs, Limiter.add_headers cfg result policyArg now_s = some hs ∧
      hs.lookup "RateLimit-Limit" = some (toString matched.permits) ∧
      hs.lookup "RateLimit-Remaining" = some (toString (max 0 result.remaining)) ∧
      (0:Int) ≤ max 0 result.remaining ∧
      hs.lookup "RateLimit-Reset" = some (toString result.reset_seconds) ∧
      1 ≤ result.reset_seconds ∧
      ((hs.lookup "Retry-After").isSome ↔ result.allowed = false) ∧
      (result.allowed = false →
        hs.lookup "Retry-After" = some (toString result.retry_after_seconds) ∧
          1 ≤ result.retry_after_seconds) := by
  unfold Limiter.add_headers
  rw [hp]
  dsimp only
  rw [hm]
  simp only [hexp, Bool.not_true, Bool.false_eq_true, if_false]
  refine ⟨_, rfl, ?_⟩
  cases hleg : cfg.legacy_timestamp_header <;>
    cases hpo : cfg.expose_policy_header <;>
    cases hall : result.allowed <;>
    simp [List.lookup, RateLimitResult.reset_seconds, RateLimitResult.retry_after_seconds,
      le_max_left]

/-- Closed instance of C9: a rejection result on the burst policy gets
a `Retry-After` of at least one second. -/
theorem c9_witness :
    ∃ hs, Limiter.add_headers cfg0 ⟨false, 94, 594, 0, 0⟩ (some burstPolicy) 1700000000
        = some hs ∧
      hs.lookup "RateLimit-Limit" = some "10" ∧
      hs.lookup "Retry-After"
        = some (toString (RateLimitResult.mk false 94 594 0 0).retry_after_seconds) ∧
      1 ≤ (RateLimitResult.mk false 94 594 0 0).retry_after_seconds := by
  obtain ⟨hs, h1, h2, _, _, _, _, _, h8⟩ :=
    c9_headers cfg0 ⟨false, 94, 594, 0, 0⟩ (some burstPolicy) burstPolicy ⟨10, "1s", 5⟩
      1700000000 rfl rfl (by decide)
  exact ⟨hs, h1, h2, (h8 rfl).1, (h8 rfl).2⟩

/-- C6: the api_key selector takes the credential from the `X-API-Key`
header first, then from an `Authorization: Bearer` token, then from the
`api_key` query parameter, and returns the first 32 hex characters of
its SHA-256 — never the raw secret; with no credential it returns the
literal `"no_api_key"`. -/
theorem c6_api_key_selector (req : Request) : key_api_key req = keyApiKeySpec req := by
  unfold key_api_key keyApiKeySpec apiCredential keyApiKeyQuery hash_key
  dsimp only []
  split_ifs <;> simp_all

end Pacer
